import Mathlib

/-!
Verification of the Ago runtime value library (tagged-union `AgoType`,
casting engine, collection operations, operators, iteration adapter),
shallowly embedded from `src/rust/src/{types,casting,collections,operators,iterators}.rs`.

Modelling conventions:
  * `i128` is embedded as `Int` (unbounded; none of the verified
    properties depend on 128-bit overflow).  Where the source converts
    an `i128` to `usize` with `as` (a wrapping conversion), the wrap is
    made explicit with `% 2^64`.
  * `f64` is embedded as `Rat`: every finite double is a rational and
    all float computations appearing in the verified properties are
    exact.  NaN/infinity are outside the model.
  * Rust `panic!` / `expect` / slice-index panics are embedded as
    `Except.error` with a condition from the spec's error taxonomy.
  * `HashMap<String, AgoType>` is embedded as an association list with
    unique keys; `HashMap::insert` replaces in place or appends.
-/

namespace Ago

/-- Error taxonomy of the runtime (spec §7), plus the two Rust-level
panics (`/`/`%` by zero, slice-index panic) that are not named there. -/
inductive AgoError where
  | UnsupportedCast
  | CastParseFailure
  | IndexOutOfBounds
  | KeyNotFound
  | KeyTypeMismatch
  | ValueKindMismatch
  | InvalidCharacterReplacement
  | UnsupportedContainerOperation
  | UnsupportedOperandKinds
  | BothOperandsNull
  | DivisionByZero
  | SliceIndexPanic
  deriving DecidableEq, Repr

/-- `struct AgoRange` from `types.rs`.  The source field `end` is a Lean
keyword and is rendered `stop` here. -/
structure AgoRange where
  start : Int
  stop : Int
  inclusive : Bool
  deriving DecidableEq, Repr

/-- `enum AgoType` from `types.rs`: the tagged-union runtime value. -/
inductive AgoType where
  | Int (val : Int)
  | Float (val : Rat)
  | Bool (val : Bool)
  | String (val : String)
  | IntList (val : List Int)
  | FloatList (val : List Rat)
  | BoolList (val : List Bool)
  | StringList (val : List String)
  | Struct (val : List (String × AgoType))
  | ListAny (val : List AgoType)
  | Range (val : AgoRange)
  | Null
  deriving Repr

/-- Type alias from `types.rs` (`pub type AgoInt = i128`), embedded as
`Int`. -/
abbrev AgoInt := Int

/-- Type alias from `types.rs` (`pub type AgoFloat = f64`), embedded as
`Rat`. -/
abbrev AgoFloat := Rat

/-- `enum TargetType` from `types.rs`: the target kind for casting. -/
inductive TargetType where
  | Int
  | Float
  | Bool
  | String
  | IntList
  | FloatList
  | BoolList
  | StringList
  | Struct
  | ListAny
  | Range
  | Null
  | Any
  deriving DecidableEq, Repr

/-- `Result` of an operation: the source panics, the embedding returns
an explicit error condition. -/
abbrev AgoResult := Except AgoError AgoType

/-- Rust `x as usize` on an `i128`: wrapping (two's-complement)
conversion to 64 bits, made explicit with `% 2^64`. -/
def usizeOfI128 (x : Int) : Nat :=
  (x % (2 : Int) ^ 64).toNat

/-- Rust slice indexing `l[s..e]`: defined when `s ≤ e ∧ e ≤ l.length`,
otherwise a slice-index panic (`none`). -/
def rustSlice {α : Type} (l : List α) (s e : Nat) : Option (List α) :=
  if s ≤ e ∧ e ≤ l.length then some ((l.drop s).take (e - s)) else none

/-- `HashMap::insert`: bind `k` to `v`, replacing an existing binding in
place or appending a fresh one.  The hash map is embedded as an
association list; list order stands in for the map's iteration order. -/
def structInsert (m : List (String × AgoType)) (k : String) (v : AgoType) :
    List (String × AgoType) :=
  match m with
  | [] => [(k, v)]
  | (k0, v0) :: rest =>
      if k0 = k then (k, v) :: rest else (k0, v0) :: structInsert rest k v

/-- `HashMap::get`: look up key `k`. -/
def structLookup (m : List (String × AgoType)) (k : String) : Option AgoType :=
  match m with
  | [] => none
  | (k0, v0) :: rest => if k0 = k then some v0 else structLookup rest k

/-- Truncation of a rational toward zero, the semantics of Rust's
`f64 as i128` (the saturation at the i128 bounds lies outside the
unbounded-`Int` idealization). -/
def ratTrunc (q : Rat) : Int :=
  q.num.tdiv q.den

/-- Value of a decimal digit character, `none` for a non-digit. -/
def digitVal (c : Char) : Option Nat :=
  if '0' ≤ c ∧ c ≤ '9' then some (c.toNat - Char.toNat '0') else none

/-- Parse a non-empty run of decimal digits (the digit part of Rust's
integer grammar); `none` on an empty or non-digit input. -/
def parseDigits (cs : List Char) : Option Nat :=
  go 0 cs
where
  go (acc : Nat) : List Char → Option Nat
    | [] => some acc
    | c :: rest =>
        match digitVal c with
        | some d => go (acc * 10 + d) rest
        | none => none

/-- Rust `str::parse::<i128>()`: optional sign followed by one or more
digits (overflow lies outside the unbounded-`Int` idealization). -/
def parseI128 (s : String) : Option Int :=
  match s.data with
  | [] => none
  | '+' :: cs => if cs = [] then none else (parseDigits cs).map Int.ofNat
  | '-' :: cs => if cs = [] then none else (parseDigits cs).map (fun n => -(n : Int))
  | cs => (parseDigits cs).map Int.ofNat

/-- Leading run of decimal digits and the remainder of the input. -/
def takeDigits : List Char → List Char × List Char
  | [] => ([], [])
  | c :: cs =>
      if ('0' ≤ c ∧ c ≤ '9') then
        let p := takeDigits cs
        (c :: p.1, p.2)
      else ([], c :: cs)

/-- Numeric value of a digit run (most significant digit first). -/
def digitsToNat (cs : List Char) : Nat :=
  cs.foldl (fun a c => a * 10 + (c.toNat - Char.toNat '0')) 0

/-- Exponent part of Rust's float grammar: optional sign, one or more
digits. -/
def parseExponent (cs : List Char) : Option Int :=
  match cs with
  | [] => none
  | '+' :: rest => if rest = [] then none else (parseDigits rest).map Int.ofNat
  | '-' :: rest => if rest = [] then none else (parseDigits rest).map (fun n => -(n : Int))
  | rest => (parseDigits rest).map Int.ofNat

/-- Unsigned body of Rust's `str::parse::<f64>()` decimal grammar:
`digits [. digits] [(e|E) exp]` or `. digits [(e|E) exp]`, evaluated
exactly as a rational (the rounding to the nearest double, and the
`inf`/`nan` keywords, lie outside the `Rat` idealization of `f64`). -/
def parseF64Body (cs : List Char) : Option Rat :=
  let ip := takeDigits cs
  match ip.2 with
  | '.' :: rest2 =>
      let fp := takeDigits rest2
      if ip.1 = [] ∧ fp.1 = [] then none
      else
        let mant : Rat :=
          (digitsToNat ip.1 : Rat) + (digitsToNat fp.1 : Rat) / (10 : Rat) ^ fp.1.length
        match fp.2 with
        | [] => some mant
        | e :: rest4 =>
            if e = 'e' ∨ e = 'E' then
              (parseExponent rest4).map (fun k => mant * (10 : Rat) ^ k)
            else none
  | e :: rest2 =>
      if (e = 'e' ∨ e = 'E') ∧ ip.1 ≠ [] then
        (parseExponent rest2).map (fun k => (digitsToNat ip.1 : Rat) * (10 : Rat) ^ k)
      else none
  | [] => if ip.1 = [] then none else some (digitsToNat ip.1 : Rat)

/-- Rust `str::parse::<f64>()`: optional sign, then the decimal body. -/
def parseF64 (s : String) : Option Rat :=
  match s.data with
  | '+' :: cs => parseF64Body cs
  | '-' :: cs => (parseF64Body cs).map Neg.neg
  | cs => parseF64Body cs

/-- Fractional decimal digits of `num/den` (`0 < num < den`), one digit
per step.  Every float reachable in the model has a finite expansion
(denominator `2^a·5^b`), well within the fuel. -/
def fracDigits : Nat → Nat → Nat → String
  | 0, _, _ => ""
  | fuel + 1, num, den =>
      if num = 0 then ""
      else
        let num10 := num * 10
        toString (num10 / den) ++ fracDigits fuel (num10 % den) den

/-- Display of an `f64` (`val.to_string()`), on the `Rat` idealization:
the exact decimal expansion, with no trailing `.0` for integral values
— matching Rust's shortest-round-trip display on every double whose
value is exactly a short decimal. -/
def floatToString (q : Rat) : String :=
  let sign := if q < 0 then "-" else ""
  let n := q.num.natAbs
  let d := q.den
  if n % d = 0 then sign ++ toString (n / d)
  else sign ++ toString (n / d) ++ "." ++ fracDigits 1200 (n % d) d

/-- The kind discriminant of a value (the spec's `kind_of`), as a cast
target; variant names follow `species` in `functions.rs`. -/
def kindOf : AgoType → TargetType
  | .Int _ => .Int
  | .Float _ => .Float
  | .Bool _ => .Bool
  | .String _ => .String
  | .IntList _ => .IntList
  | .FloatList _ => .FloatList
  | .BoolList _ => .BoolList
  | .StringList _ => .StringList
  | .Struct _ => .Struct
  | .ListAny _ => .ListAny
  | .Range _ => .Range
  | .Null => .Null

/-- Int→Float cast of `casting.rs` (`*val as f64`; exact in the `Rat`
idealization, where the rounding of magnitudes above 2^53 disappears). -/
def intAsFloat (v : Int) : Rat := (v : Rat)

/-- Int→Bool cast of `casting.rs` (`*val != 0`). -/
def intAsBool (v : Int) : Bool := v != 0

/-- Float→Int cast of `casting.rs` (`*val as i128`, truncation). -/
def floatAsInt (q : Rat) : Int := ratTrunc q

/-- Float→Bool cast of `casting.rs` (`*val != 0.0`). -/
def floatAsBool (q : Rat) : Bool := q != 0

/-- Bool→Int cast of `casting.rs` (`if *val { 1 } else { 0 }`). -/
def boolAsInt (b : Bool) : Int := if b then 1 else 0

/-- Bool→Float cast of `casting.rs`
(`AgoType::Float(if *val { 4.2 } else { -3.9 })`). -/
def boolAsFloat (b : Bool) : Rat := if b then (4.2 : Rat) else (-3.9 : Rat)

/-- Display of a `bool` (`val.to_string()`). -/
def boolAsString (b : Bool) : String := if b then "true" else "false"

/-- String→Bool cast of `casting.rs` (`!val.is_empty()`). -/
def stringAsBool (s : String) : Bool := !s.isEmpty

/-- The `(·, TargetType::String)` column of `as_type` as a total
function: every variant has a →String rule and none of them can fail,
so the `item.as_type(TargetType::String)` element casts (whose non-
string results the source marks `unreachable!()`) are exactly this
function. -/
def toDisplayString : AgoType → String
  | .Int val => toString val
  | .Float val => floatToString val
  | .Bool val => boolAsString val
  | .String val => val
  | .IntList val => String.intercalate "\n" (val.map (fun i => toString i))
  | .FloatList val => String.intercalate "\n" (val.map floatToString)
  | .BoolList val => String.intercalate "\n" (val.map boolAsString)
  | .StringList val => String.intercalate "\n" val
  | .ListAny val =>
      String.intercalate "\n" (val.attach.map (fun x => toDisplayString x.1))
  | .Struct val =>
      let parts := val.attach.map (fun x => x.1.1 ++ ": " ++ toDisplayString x.1.2)
      "\x7b " ++ String.intercalate ", " parts ++ " \x7d"
  | .Range val =>
      toString val.start ++ (if val.inclusive then ".." else ".<") ++ toString val.stop
  | .Null => "inanis"
  decreasing_by
    · have h1 := List.sizeOf_lt_of_mem x.2
      simp only [AgoType.ListAny.sizeOf_spec]
      omega
    · obtain ⟨⟨a, b⟩, hmem⟩ := x
      show sizeOf b < sizeOf (AgoType.Struct val)
      have h1 := List.sizeOf_lt_of_mem hmem
      simp only [Prod.mk.sizeOf_spec] at h1
      simp only [AgoType.Struct.sizeOf_spec]
      omega

/-- `entry(k).or_insert_with(Vec::new).push(i)` on the association-list
embedding of `HashMap<String, Vec<i128>>`. -/
def entryPush (m : List (String × List Int)) (k : String) (i : Int) :
    List (String × List Int) :=
  match m with
  | [] => [(k, [i])]
  | (k0, l0) :: rest =>
      if k0 = k then (k0, l0 ++ [i]) :: rest else (k0, l0) :: entryPush rest k i

/-- The `(·, TargetType::Int)` column of `as_type` as a standalone
function: what `item.as_type(TargetType::Int)` produces for each
element kind.  No `(·, Int)` rule recurses into elements or returns a
non-`Int`, so the source's `unreachable!()` unwrap of elementwise casts
is exactly this function's payload (`asType_int_column` below proves
agreement with the matrix). -/
def castColInt : AgoType → Except AgoError AgoInt
  | .Int val => .ok val
  | .Float val => .ok (floatAsInt val)
  | .Bool val => .ok (boolAsInt val)
  | .String val =>
      match parseI128 val with
      | some i => .ok i
      | none => .error .CastParseFailure
  | .IntList val => .ok (val.length : AgoInt)
  | .FloatList val => .ok (val.length : AgoInt)
  | .BoolList val => .ok (val.length : AgoInt)
  | .StringList val => .ok (val.length : AgoInt)
  | .ListAny val => .ok (val.length : AgoInt)
  | .Null => .ok 0
  | _ => .error .UnsupportedCast

/-- The `(·, TargetType::Float)` column of `as_type` as a standalone
function (see `castColInt`; agreement proved by `asType_float_column`). -/
def castColFloat : AgoType → Except AgoError AgoFloat
  | .Float val => .ok val
  | .Null => .ok 0
  | .Int val => .ok (intAsFloat val)
  | .Bool val => .ok (boolAsFloat val)
  | .String val =>
      match parseF64 val with
      | some f => .ok f
      | none => .error .CastParseFailure
  | _ => .error .UnsupportedCast

/-- The `(·, TargetType::Bool)` column of `as_type` as a standalone
function; every kind has a →Bool rule and none can fail, so this column
is total (agreement proved by `asType_bool_column`). -/
def castColBool : AgoType → Bool
  | .Bool val => val
  | .Null => false
  | .Int val => intAsBool val
  | .Float val => floatAsBool val
  | .String val => stringAsBool val
  | .IntList val => !val.isEmpty
  | .FloatList val => !val.isEmpty
  | .BoolList val => !val.isEmpty
  | .StringList val => !val.isEmpty
  | .ListAny val => !val.isEmpty
  | .Struct val => !val.isEmpty
  | .Range val =>
      !(if val.inclusive then val.start > val.stop else val.start ≥ val.stop)

/-- `AgoType::as_type` from `casting.rs`: the casting matrix.  Arms are
transcribed in source order (so the `(_, TargetType::Any)` arm comes
first); the final catch-all is the `panic!("Unsupported cast …")`. -/
def AgoType.asType (self : AgoType) (target : TargetType) : AgoResult :=
  match self, target with
  -- --- Any Conversions (dynamic/generic typing) ---
  | v, .Any => .ok v
  -- --- Identity Conversions ---
  | .Int val, .Int => .ok (.Int val)
  | .Float val, .Float => .ok (.Float val)
  | .Bool val, .Bool => .ok (.Bool val)
  | .String val, .String => .ok (.String val)
  | .IntList val, .IntList => .ok (.IntList val)
  | .FloatList val, .FloatList => .ok (.FloatList val)
  | .BoolList val, .BoolList => .ok (.BoolList val)
  | .StringList val, .StringList => .ok (.StringList val)
  | .Struct val, .Struct => .ok (.Struct val)
  | .ListAny val, .ListAny => .ok (.ListAny val)
  | .Range val, .Range => .ok (.Range val)
  | .Null, .Null => .ok .Null
  -- --- Null Conversions ---
  | .Null, .Bool => .ok (.Bool false)
  | .Null, .String => .ok (.String "inanis")
  | .Null, .Int => .ok (.Int 0)
  | .Null, .Float => .ok (.Float 0)
  -- --- Meaningful Conversions ---
  | .Int val, .Float => .ok (.Float (intAsFloat val))
  | .Int val, .String => .ok (.String (toString val))
  | .Int val, .Bool => .ok (.Bool (intAsBool val))
  | .Float val, .Int => .ok (.Int (floatAsInt val))
  | .Float val, .String => .ok (.String (floatToString val))
  | .Float val, .Bool => .ok (.Bool (floatAsBool val))
  | .Bool val, .Int => .ok (.Int (boolAsInt val))
  | .Bool val, .Float => .ok (.Float (boolAsFloat val))
  | .Bool val, .String => .ok (.String (boolAsString val))
  | .String val, .Int =>
      match parseI128 val with
      | some i => .ok (.Int i)
      | none => .error .CastParseFailure
  | .String val, .Float =>
      match parseF64 val with
      | some f => .ok (.Float f)
      | none => .error .CastParseFailure
  | .String val, .Bool => .ok (.Bool (stringAsBool val))
  | .String val, .StringList =>
      .ok (.StringList (val.data.map (fun c => String.mk [c])))
  -- --- List to Primitive Conversions ---
  | .IntList val, .Int => .ok (.Int (val.length : AgoInt))
  | .FloatList val, .Int => .ok (.Int (val.length : AgoInt))
  | .BoolList val, .Int => .ok (.Int (val.length : AgoInt))
  | .StringList val, .Int => .ok (.Int (val.length : AgoInt))
  | .ListAny val, .Int => .ok (.Int (val.length : AgoInt))
  | .IntList val, .String =>
      .ok (.String (String.intercalate "\n" (val.map (fun i => toString i))))
  | .FloatList val, .String =>
      .ok (.String (String.intercalate "\n" (val.map floatToString)))
  | .BoolList val, .String =>
      .ok (.String (String.intercalate "\n" (val.map boolAsString)))
  | .StringList val, .String => .ok (.String (String.intercalate "\n" val))
  | .ListAny val, .String =>
      -- elementwise `item.as_type(TargetType::String)` is total (`toDisplayString`)
      .ok (.String (String.intercalate "\n" (val.map toDisplayString)))
  -- --- List/Struct/Range to Bool ---
  | .IntList val, .Bool => .ok (.Bool (!val.isEmpty))
  | .FloatList val, .Bool => .ok (.Bool (!val.isEmpty))
  | .BoolList val, .Bool => .ok (.Bool (!val.isEmpty))
  | .StringList val, .Bool => .ok (.Bool (!val.isEmpty))
  | .ListAny val, .Bool => .ok (.Bool (!val.isEmpty))
  | .Struct val, .Bool => .ok (.Bool (!val.isEmpty))
  | .Range val, .Bool =>
      let isEmpty := if val.inclusive then val.start > val.stop else val.start ≥ val.stop
      .ok (.Bool (!isEmpty))
  -- --- Struct to String ---
  | .Struct val, .String =>
      let parts := val.map (fun kv => kv.1 ++ ": " ++ toDisplayString kv.2)
      .ok (.String ("\x7b " ++ String.intercalate ", " parts ++ " \x7d"))
  -- --- Range to String ---
  | .Range val, .String =>
      .ok (.String (toString val.start ++ (if val.inclusive then ".." else ".<")
        ++ toString val.stop))
  -- --- Range to IntList ---
  | .Range val, .IntList =>
      if val.start > val.stop then .ok (.IntList [])
      else
        -- the while loop pushes start, …, stop−1 and leaves i = stop, so the
        -- trailing `val.inclusive && i == end` test reduces to `val.inclusive`
        let base := (List.range (val.stop - val.start).toNat).map (fun k => val.start + k)
        .ok (.IntList (base ++ if val.inclusive then [val.stop] else []))
  -- --- List to Range ---
  | .IntList val, .Range => .ok (.Range ⟨0, (val.length : AgoInt) - 1, true⟩)
  | .FloatList val, .Range => .ok (.Range ⟨0, (val.length : AgoInt) - 1, true⟩)
  | .BoolList val, .Range => .ok (.Range ⟨0, (val.length : AgoInt) - 1, true⟩)
  | .StringList val, .Range => .ok (.Range ⟨0, (val.length : AgoInt) - 1, true⟩)
  | .ListAny val, .Range => .ok (.Range ⟨0, (val.length : AgoInt) - 1, true⟩)
  -- --- List Conversions (elementwise through the primitive rules) ---
  | .IntList val, .FloatList => .ok (.FloatList (val.map intAsFloat))
  | .IntList val, .BoolList => .ok (.BoolList (val.map intAsBool))
  | .IntList val, .StringList => .ok (.StringList (val.map (fun i => toString i)))
  | .FloatList val, .IntList => .ok (.IntList (val.map floatAsInt))
  | .FloatList val, .BoolList => .ok (.BoolList (val.map floatAsBool))
  | .FloatList val, .StringList => .ok (.StringList (val.map floatToString))
  | .BoolList val, .IntList => .ok (.IntList (val.map boolAsInt))
  | .BoolList val, .FloatList => .ok (.FloatList (val.map boolAsFloat))
  | .BoolList val, .StringList => .ok (.StringList (val.map boolAsString))
  | .StringList val, .IntList =>
      -- elementwise `AgoType::String(item).as_type(TargetType::Int)` with the
      -- source's unreachable-unwrap; the first failing element aborts
      (val.mapM (fun s => castColInt (.String s))).map (fun l => .IntList l)
  | .StringList val, .FloatList =>
      (val.mapM (fun s => castColFloat (.String s))).map (fun l => .FloatList l)
  | .StringList val, .BoolList => .ok (.BoolList (val.map stringAsBool))
  -- --- Typed lists to ListAny ---
  | .IntList val, .ListAny => .ok (.ListAny (val.map (fun i => .Int i)))
  | .FloatList val, .ListAny => .ok (.ListAny (val.map (fun f => .Float f)))
  | .BoolList val, .ListAny => .ok (.ListAny (val.map (fun b => .Bool b)))
  | .StringList val, .ListAny => .ok (.ListAny (val.map (fun s => .String s)))
  -- --- ListAny to typed lists ---
  | .ListAny val, .StringList =>
      -- elementwise `item.as_type(TargetType::String)` is total (`toDisplayString`)
      .ok (.StringList (val.map toDisplayString))
  | .ListAny val, .IntList =>
      -- elementwise `item.as_type(TargetType::Int)` (the Int column of the
      -- matrix) with the source's unreachable-unwrap; the first failing
      -- element aborts the whole conversion
      (val.mapM castColInt).map (fun l => .IntList l)
  | .ListAny val, .FloatList =>
      (val.mapM castColFloat).map (fun l => .FloatList l)
  | .ListAny val, .BoolList =>
      -- the Bool column is total
      .ok (.BoolList (val.map castColBool))
  -- --- ListAny to Struct (three-way dispatch) ---
  | .ListAny val, .Struct =>
      let allStrings := val.all (fun item =>
        match item with
        | .String _ => true
        | _ => false)
      if allStrings && !val.isEmpty then
        -- Case 1: all strings — each distinct string maps to the IntList of
        -- the indices at which it occurs
        let result := val.enum.foldl (fun m p =>
          match p.2 with
          | .String s => entryPush m s (p.1 : AgoInt)
          | _ => m) []
        .ok (.Struct (result.map (fun kv => (kv.1, .IntList kv.2))))
      else
        let allPairs := val.all (fun item =>
          match item with
          | .ListAny inner => inner.length == 2
          | _ => false)
        if allPairs && !val.isEmpty then
          -- Case 2: all 2-element lists — first item is key (cast to string),
          -- second is value
          let m := val.foldl (fun m item =>
            match item with
            | .ListAny (k0 :: v1 :: _) =>
                let key :=
                  match k0 with
                  | .String s => s
                  | other => toDisplayString other
                structInsert m key v1
            | _ => m) []
          .ok (.Struct m)
        else
          -- Case 3: keys are index strings
          .ok (.Struct (val.enum.map (fun p => (toString p.1, p.2))))
  -- --- Struct to StringList (keys) ---
  | .Struct val, .StringList => .ok (.StringList (val.map (fun kv => kv.1)))
  -- Default error for unsupported conversions
  | _, _ => .error .UnsupportedCast

/-- `range_bounds` from `collections.rs`: slice bounds from a range.
`let start = range.start.max(0) as usize;`
`let end = if range.inclusive { (range.end + 1).min(len as i128) as usize }`
`          else { range.end.min(len as i128) as usize };`
`(start.min(len), end.min(len))` — the `as usize` conversions wrap. -/
def rangeBounds (range : AgoRange) (len : Nat) : Nat × Nat :=
  let start := usizeOfI128 (max range.start 0)
  let stop :=
    if range.inclusive then usizeOfI128 (min (range.stop + 1) (len : Int))
    else usizeOfI128 (min range.stop (len : Int))
  (min start len, min stop len)

/-- `get` from `collections.rs`: read access on an indexable value.
Source panics are the error conditions; the slice expressions
`list[start..end]` go through `rustSlice` (Rust panics when the clamped
start exceeds the clamped end). -/
def get (iter : AgoType) (n : AgoType) : AgoResult :=
  match iter, n with
  -- --- List Access by Index ---
  | .IntList list, .Int index =>
      match list.get? (usizeOfI128 index) with
      | some val => .ok (.Int val)
      | none => .error .IndexOutOfBounds
  | .FloatList list, .Int index =>
      match list.get? (usizeOfI128 index) with
      | some val => .ok (.Float val)
      | none => .error .IndexOutOfBounds
  | .BoolList list, .Int index =>
      match list.get? (usizeOfI128 index) with
      | some val => .ok (.Bool val)
      | none => .error .IndexOutOfBounds
  | .StringList list, .Int index =>
      match list.get? (usizeOfI128 index) with
      | some val => .ok (.String val)
      | none => .error .IndexOutOfBounds
  | .ListAny list, .Int index =>
      match list.get? (usizeOfI128 index) with
      | some val => .ok val
      | none => .error .IndexOutOfBounds
  -- --- List Access by Range (sublists) ---
  | .IntList list, .Range range =>
      let b := rangeBounds range list.length
      match rustSlice list b.1 b.2 with
      | some sub => .ok (.IntList sub)
      | none => .error .SliceIndexPanic
  | .FloatList list, .Range range =>
      let b := rangeBounds range list.length
      match rustSlice list b.1 b.2 with
      | some sub => .ok (.FloatList sub)
      | none => .error .SliceIndexPanic
  | .BoolList list, .Range range =>
      let b := rangeBounds range list.length
      match rustSlice list b.1 b.2 with
      | some sub => .ok (.BoolList sub)
      | none => .error .SliceIndexPanic
  | .StringList list, .Range range =>
      let b := rangeBounds range list.length
      match rustSlice list b.1 b.2 with
      | some sub => .ok (.StringList sub)
      | none => .error .SliceIndexPanic
  | .ListAny list, .Range range =>
      let b := rangeBounds range list.length
      match rustSlice list b.1 b.2 with
      | some sub => .ok (.ListAny sub)
      | none => .error .SliceIndexPanic
  -- --- String Access (get character) ---
  | .String s, .Int index =>
      match s.data.get? (usizeOfI128 index) with
      | some c => .ok (.String (String.mk [c]))
      | none => .error .IndexOutOfBounds
  -- --- String Access by Range (substring) ---
  | .String s, .Range range =>
      let chars := s.data
      let b := rangeBounds range chars.length
      match rustSlice chars b.1 b.2 with
      | some sub => .ok (.String (String.mk sub))
      | none => .error .SliceIndexPanic
  -- --- Struct Access ---
  | .Struct map, .String key =>
      match structLookup map key with
      | some val => .ok val
      | none => .error .KeyNotFound
  -- --- Error Cases ---
  | .Struct _, _ => .error .KeyTypeMismatch
  | .IntList _, _ | .FloatList _, _ | .BoolList _, _ | .StringList _, _
  | .ListAny _, _ | .String _, _ => .error .KeyTypeMismatch
  | _, _ => .error .UnsupportedContainerOperation

/-- `set` from `collections.rs`: in-place mutation.  The embedding
returns the container state at exit together with the panic condition,
if any; the source performs no mutation before any of its panics, so
every error case returns the container as it was passed in. -/
def set (iter : AgoType) (n : AgoType) (value : AgoType) :
    AgoType × Option AgoError :=
  match iter, n with
  -- --- List Mutation (bounds checked via get_mut, then kind checked) ---
  | .IntList list, .Int index =>
      let idx := usizeOfI128 index
      if idx < list.length then
        match value with
        | .Int newVal => (.IntList (list.set idx newVal), none)
        | _ => (.IntList list, some .ValueKindMismatch)
      else (.IntList list, some .IndexOutOfBounds)
  | .FloatList list, .Int index =>
      let idx := usizeOfI128 index
      if idx < list.length then
        match value with
        | .Float newVal => (.FloatList (list.set idx newVal), none)
        | _ => (.FloatList list, some .ValueKindMismatch)
      else (.FloatList list, some .IndexOutOfBounds)
  | .BoolList list, .Int index =>
      let idx := usizeOfI128 index
      if idx < list.length then
        match value with
        | .Bool newVal => (.BoolList (list.set idx newVal), none)
        | _ => (.BoolList list, some .ValueKindMismatch)
      else (.BoolList list, some .IndexOutOfBounds)
  | .StringList list, .Int index =>
      let idx := usizeOfI128 index
      if idx < list.length then
        match value with
        | .String newVal => (.StringList (list.set idx newVal), none)
        | _ => (.StringList list, some .ValueKindMismatch)
      else (.StringList list, some .IndexOutOfBounds)
  | .ListAny list, .Int index =>
      let idx := usizeOfI128 index
      if idx < list.length then (.ListAny (list.set idx value), none)
      else (.ListAny list, some .IndexOutOfBounds)
  -- --- String Mutation (single-character check, then bounds) ---
  | .String s, .Int index =>
      let idx := usizeOfI128 index
      match value with
      | .String charToSet =>
          -- `char_to_set.chars().count() != 1` panics; otherwise the sole
          -- character is `chars().next().unwrap()`
          match charToSet.data with
          | [c] =>
              let chars := s.data
              if idx < chars.length then (.String (String.mk (chars.set idx c)), none)
              else (.String s, some .IndexOutOfBounds)
          | _ => (.String s, some .InvalidCharacterReplacement)
      | _ => (.String s, some .ValueKindMismatch)
  -- --- Struct Mutation ---
  | .Struct map, .String key => (.Struct (structInsert map key value), none)
  -- --- Error Cases ---
  | .Struct map, _ => (.Struct map, some .KeyTypeMismatch)
  | .IntList list, _ => (.IntList list, some .KeyTypeMismatch)
  | .FloatList list, _ => (.FloatList list, some .KeyTypeMismatch)
  | .BoolList list, _ => (.BoolList list, some .KeyTypeMismatch)
  | .StringList list, _ => (.StringList list, some .KeyTypeMismatch)
  | .ListAny list, _ => (.ListAny list, some .KeyTypeMismatch)
  | other, _ => (other, some .UnsupportedContainerOperation)

/-- `inseri` from `collections.rs`: in-place insertion (kind checked
first; `Vec::insert` itself panics when the index exceeds the length).
Same state-at-exit embedding as `set`. -/
def inseri (coll : AgoType) (key : AgoType) (value : AgoType) :
    AgoType × Option AgoError :=
  match coll, key with
  -- --- List Insertion ---
  | .IntList list, .Int index =>
      let idx := usizeOfI128 index
      match value with
      | .Int newVal =>
          if idx ≤ list.length then (.IntList (list.insertIdx idx newVal), none)
          else (.IntList list, some .IndexOutOfBounds)
      | _ => (.IntList list, some .ValueKindMismatch)
  | .FloatList list, .Int index =>
      let idx := usizeOfI128 index
      match value with
      | .Float newVal =>
          if idx ≤ list.length then (.FloatList (list.insertIdx idx newVal), none)
          else (.FloatList list, some .IndexOutOfBounds)
      | _ => (.FloatList list, some .ValueKindMismatch)
  | .BoolList list, .Int index =>
      let idx := usizeOfI128 index
      match value with
      | .Bool newVal =>
          if idx ≤ list.length then (.BoolList (list.insertIdx idx newVal), none)
          else (.BoolList list, some .IndexOutOfBounds)
      | _ => (.BoolList list, some .ValueKindMismatch)
  | .StringList list, .Int index =>
      let idx := usizeOfI128 index
      match value with
      | .String newVal =>
          if idx ≤ list.length then (.StringList (list.insertIdx idx newVal), none)
          else (.StringList list, some .IndexOutOfBounds)
      | _ => (.StringList list, some .ValueKindMismatch)
  | .ListAny list, .Int index =>
      let idx := usizeOfI128 index
      if idx ≤ list.length then (.ListAny (list.insertIdx idx value), none)
      else (.ListAny list, some .IndexOutOfBounds)
  -- --- Struct Insertion (same as set) ---
  | .Struct map, .String key => (.Struct (structInsert map key value), none)
  -- --- Error Cases ---
  | .Struct map, _ => (.Struct map, some .KeyTypeMismatch)
  | .IntList list, _ => (.IntList list, some .KeyTypeMismatch)
  | .FloatList list, _ => (.FloatList list, some .KeyTypeMismatch)
  | .BoolList list, _ => (.BoolList list, some .KeyTypeMismatch)
  | .StringList list, _ => (.StringList list, some .KeyTypeMismatch)
  | .ListAny list, _ => (.ListAny list, some .KeyTypeMismatch)
  | other, _ => (other, some .UnsupportedContainerOperation)

/-- `i128` division (`/` in `numeric_op!`): truncates toward zero and
panics on a zero divisor. -/
def i128Div (a b : Int) : Except AgoError Int :=
  if b = 0 then .error .DivisionByZero else .ok (a.tdiv b)

/-- `i128` remainder (`%` in `numeric_op!`): sign of the dividend and
panics on a zero divisor. -/
def i128Mod (a b : Int) : Except AgoError Int :=
  if b = 0 then .error .DivisionByZero else .ok (a.tmod b)

/-- `f64` remainder (`%` on floats): `a - b * trunc(a / b)`.  (On the
`Rat` idealization; the `b = 0` case, NaN in `f64`, is out of model.) -/
def f64Mod (a b : Rat) : Rat :=
  a - b * (ratTrunc (a / b) : Rat)

/-- `add` from `operators.rs`: numeric addition with promotion to
`Float` when either operand is `Float`, string concatenation, and
same-kind list concatenation; anything else panics. -/
def add (left right : AgoType) : AgoResult :=
  match left, right with
  -- Numeric
  | .Float a, .Float b => .ok (.Float (a + b))
  | .Float a, .Int b => .ok (.Float (a + intAsFloat b))
  | .Int a, .Float b => .ok (.Float (intAsFloat a + b))
  | .Int a, .Int b => .ok (.Int (a + b))
  -- String concat
  | .String a, .String b => .ok (.String (a ++ b))
  -- List concat
  | .IntList a, .IntList b => .ok (.IntList (a ++ b))
  | .FloatList a, .FloatList b => .ok (.FloatList (a ++ b))
  | .BoolList a, .BoolList b => .ok (.BoolList (a ++ b))
  | .StringList a, .StringList b => .ok (.StringList (a ++ b))
  | .ListAny a, .ListAny b => .ok (.ListAny (a ++ b))
  | _, _ => .error .UnsupportedOperandKinds

/-- `numeric_op!(subtract, -)` from `operators.rs`. -/
def subtract (left right : AgoType) : AgoResult :=
  match left, right with
  | .Float a, .Float b => .ok (.Float (a - b))
  | .Float a, .Int b => .ok (.Float (a - intAsFloat b))
  | .Int a, .Float b => .ok (.Float (intAsFloat a - b))
  | .Int a, .Int b => .ok (.Int (a - b))
  | _, _ => .error .UnsupportedOperandKinds

/-- `numeric_op!(multiply, *)` from `operators.rs`. -/
def multiply (left right : AgoType) : AgoResult :=
  match left, right with
  | .Float a, .Float b => .ok (.Float (a * b))
  | .Float a, .Int b => .ok (.Float (a * intAsFloat b))
  | .Int a, .Float b => .ok (.Float (intAsFloat a * b))
  | .Int a, .Int b => .ok (.Int (a * b))
  | _, _ => .error .UnsupportedOperandKinds

/-- `numeric_op!(divide, /)` from `operators.rs`; `i128` division by
zero panics (f64 division is total, giving ±inf/NaN; within the `Rat`
idealization a zero float divisor yields `Rat` division's 0). -/
def divide (left right : AgoType) : AgoResult :=
  match left, right with
  | .Float a, .Float b => .ok (.Float (a / b))
  | .Float a, .Int b => .ok (.Float (a / intAsFloat b))
  | .Int a, .Float b => .ok (.Float (intAsFloat a / b))
  | .Int a, .Int b => (i128Div a b).map (fun v => .Int v)
  | _, _ => .error .UnsupportedOperandKinds

/-- `numeric_op!(modulo, %)` from `operators.rs`; `i128` remainder by
zero panics. -/
def modulo (left right : AgoType) : AgoResult :=
  match left, right with
  | .Float a, .Float b => .ok (.Float (f64Mod a b))
  | .Float a, .Int b => .ok (.Float (f64Mod a (intAsFloat b)))
  | .Int a, .Float b => .ok (.Float (f64Mod (intAsFloat a) b))
  | .Int a, .Int b => (i128Mod a b).map (fun v => .Int v)
  | _, _ => .error .UnsupportedOperandKinds

/-- `elvis` from `operators.rs`: the null-coalescing `?:` operator.
Returns the left value if it is not `Null`, else the right value if it
is not `Null`, else panics. -/
def elvis (left right : AgoType) : AgoResult :=
  match left with
  | .Null =>
      match right with
      | .Null => .error .BothOperandsNull
      | _ => .ok right
  | _ => .ok left

/-- `into_iter` from `iterators.rs`, with the lazy boxed iterator
embedded as the (finite) list of the values it yields, in order.  The
`Range` arm uses the std range iterators `start..=end` / `start..end`;
non-iterable kinds yield an empty sequence. -/
def intoIter (iterable : AgoType) : List AgoType :=
  match iterable with
  | .IntList v => v.map (fun i => .Int i)
  | .FloatList v => v.map (fun f => .Float f)
  | .BoolList v => v.map (fun b => .Bool b)
  | .StringList v => v.map (fun s => .String s)
  | .ListAny v => v
  | .String s => s.data.map (fun c => .String (String.mk [c]))
  | .Range r =>
      let range :=
        if r.inclusive then
          (List.range (r.stop - r.start + 1).toNat).map (fun k => r.start + k)
        else
          (List.range (r.stop - r.start).toNat).map (fun k => r.start + k)
      range.map (fun i => .Int i)
  | _ => []

/-! ## Helper lemmas -/

/-- `attach`-elimination for the `Struct` arm of `toDisplayString`. -/
lemma attach_map_entry (m : List (String × AgoType)) :
    m.attach.map (fun x => x.1.1 ++ ": " ++ toDisplayString x.1.2) =
      m.map (fun kv => kv.1 ++ ": " ++ toDisplayString kv.2) :=
  List.attach_map_coe m (fun kv => kv.1 ++ ": " ++ toDisplayString kv.2)

/-- Every kind has a →String rule in the matrix and none can fail: a
cast to `String` always succeeds with the display string. -/
lemma asType_string_total (v : AgoType) :
    v.asType .String = .ok (.String (toDisplayString v)) := by
  cases v <;> simp only [toDisplayString, List.attach_map_coe, attach_map_entry] <;> rfl

/-- The integer sequence a `Range` materializes to: `start + k` for
`k` below `end′ − start`, where `end′` is `end + 1` for an inclusive
range and `end` for an exclusive one (so the sequence is empty exactly
when the range is empty). -/
def rangeSeq (r : AgoRange) : List AgoInt :=
  (List.range ((if r.inclusive then r.stop + 1 else r.stop) - r.start).toNat).map
    (fun k => r.start + (k : Int))

/-- The `Range→IntList` arm of the matrix computes `rangeSeq`. -/
lemma asType_range_intList (r : AgoRange) :
    AgoType.asType (.Range r) .IntList = .ok (.IntList (rangeSeq r)) := by
  rcases r with ⟨s, e, inc⟩
  show (if s > e then Except.ok (AgoType.IntList []) else
    Except.ok (.IntList ((List.range (e - s).toNat).map (fun k => s + (k : Int)) ++
      if inc then [e] else []))) = .ok (.IntList (rangeSeq ⟨s, e, inc⟩))
  by_cases h : s > e
  · have h0 : ((if inc then e + 1 else e) - s).toNat = 0 := by
      cases inc <;> simp <;> omega
    simp [rangeSeq, h, h0]
  · cases inc
    · simp [rangeSeq, h]
    · have h1 : (e + 1 - s).toNat = (e - s).toNat + 1 := by omega
      simp [rangeSeq, h, h1, List.range_succ]
      omega

/-! ## Claim theorems -/

/-- C1: for every representable Value `v`, casting `v` to its own kind
returns a Value equal to `v` (the identity cast). -/
theorem identity_cast (v : AgoType) : v.asType (kindOf v) = .ok v := by
  cases v <;> rfl

/-- C2: `Range→IntList` materializes the integer sequence: `start + k`
for `k < end′ − start` with `end′ = end + 1` when inclusive and `end`
when exclusive — consecutive integers from `start`, including `end`
exactly for inclusive ranges, and empty exactly when the range is empty
(inclusive with `start > end`, or exclusive with `start ≥ end`); in
particular `Range{1,5,inclusive}` gives `[1,2,3,4,5]` and
`Range{1,5,exclusive}` gives `[1,2,3,4]`. -/
theorem range_cast_materializes (r : AgoRange) :
    AgoType.asType (.Range r) .IntList =
      .ok (.IntList ((List.range
        ((if r.inclusive then r.stop + 1 else r.stop) - r.start).toNat).map
        (fun k => r.start + (k : Int)))) ∧
    (AgoType.asType (.Range r) .IntList = .ok (.IntList ([] : List AgoInt)) ↔
      (if r.inclusive then r.start > r.stop else r.start ≥ r.stop)) ∧
    AgoType.asType (.Range ⟨1, 5, true⟩) .IntList = .ok (.IntList [1, 2, 3, 4, 5]) ∧
    AgoType.asType (.Range ⟨1, 5, false⟩) .IntList = .ok (.IntList [1, 2, 3, 4]) := by
  refine ⟨asType_range_intList r, ?_, rfl, rfl⟩
  rcases r with ⟨s, e, inc⟩
  rw [asType_range_intList]
  have hiff : rangeSeq ⟨s, e, inc⟩ = [] ↔ ((if inc then e + 1 else e) - s).toNat = 0 := by
    simp [rangeSeq]
    exact ⟨fun h => by simpa using h 0, fun h x => by omega⟩
  constructor
  · intro h
    have h1 : rangeSeq ⟨s, e, inc⟩ = [] := AgoType.IntList.inj (Except.ok.inj h)
    have h2 := hiff.mp h1
    cases inc <;> simp only [if_true, if_false, Bool.false_eq_true] at h2 ⊢ <;> omega
  · intro h
    have h2 : ((if inc then e + 1 else e) - s).toNat = 0 := by
      cases inc <;> simp only [if_true, if_false, Bool.false_eq_true] at h ⊢ <;> omega
    rw [hiff.mpr h2]

/-- C4 (counterexample): casting `Bool` to `Float` does not yield `1.0`
for `true`; it yields the sentinel `4.2`. -/
theorem bool_to_float_cex :
    AgoType.asType (.Bool true) .Float = .ok (.Float (4.2 : Rat)) ∧
      (4.2 : Rat) ≠ 1 := by
  exact ⟨rfl, by norm_num⟩

/-- C4 (amended): casting a `Bool` to `Float` yields `4.2` for `true`
and `-3.9` for `false` (the sentinel pair in `casting.rs`). -/
theorem bool_to_float_sentinels (b : Bool) :
    AgoType.asType (.Bool b) .Float =
      .ok (.Float (if b then (4.2 : Rat) else (-3.9 : Rat))) := by
  cases b <;> rfl

/-- C7: the null-coalescing operator returns the left operand when it
is not `Null`, else the right operand when that is not `Null`, and
fails with BothOperandsNull when both are `Null`. -/
theorem elvis_spec (l r : AgoType) :
    (l ≠ .Null → elvis l r = .ok l) ∧
    (l = .Null → r ≠ .Null → elvis l r = .ok r) ∧
    (l = .Null → r = .Null → elvis l r = .error .BothOperandsNull) := by
  cases l <;> cases r <;> simp [elvis]

/-- C7 (witness): `elvis(Int(10), Null) = Int(10)`,
`elvis(Null, Int(5)) = Int(5)`, and `elvis(Null, Null)` fails with
BothOperandsNull. -/
theorem elvis_spec_witness :
    elvis (.Int 10) .Null = .ok (.Int 10) ∧
    elvis .Null (.Int 5) = .ok (.Int 5) ∧
    elvis .Null .Null = .error .BothOperandsNull :=
  ⟨(elvis_spec (.Int 10) .Null).1 (by simp),
   (elvis_spec .Null (.Int 5)).2.1 rfl (by simp),
   (elvis_spec .Null .Null).2.2 rfl rfl⟩

/-- C8: iterating a `Range` yields exactly the `Int`-wrapped elements
of the list the `Range→IntList` cast materializes, for every range. -/
theorem iterate_agrees_with_cast (r : AgoRange) :
    ∃ l : List AgoInt,
      AgoType.asType (.Range r) .IntList = .ok (.IntList l) ∧
      intoIter (.Range r) = l.map (fun i => AgoType.Int i) := by
  refine ⟨rangeSeq r, asType_range_intList r, ?_⟩
  rcases r with ⟨s, e, inc⟩
  cases inc
  · rfl
  · have h : e - s + 1 = e + 1 - s := by ring
    simp [intoIter, rangeSeq, h]

/-- C5 (counterexample): `ListAny` casts to `String` by joining with a
single newline, not a double newline: `[Int 1, Int 2]` gives `"1\n2"`,
which differs from the claimed `"1\n\n2"`. -/
theorem listany_join_cex :
    AgoType.asType (.ListAny [.Int 1, .Int 2]) .String = .ok (.String "1\n2") ∧
      ("1\n2" : String) ≠ "1\n\n2" := by
  constructor
  · delta AgoType.asType
    simp [toDisplayString]
    decide
  · decide

/-- C5 (amended): `ListAny` casts to `String` by casting every element
to `String` and joining the results with a single newline separator —
the same separator as typed lists. -/
theorem listany_to_string_joins (l : List AgoType) :
    l.map (fun v => v.asType .String) =
      l.map (fun v => Except.ok (.String (toDisplayString v))) ∧
    AgoType.asType (.ListAny l) .String =
      .ok (.String (String.intercalate "\n" (l.map toDisplayString))) ∧
    (∀ ss : List String, AgoType.asType (.StringList ss) .String =
      .ok (.String (String.intercalate "\n" ss))) := by
  refine ⟨?_, rfl, fun ss => rfl⟩
  simp only [asType_string_total]

/-- C6 (counterexample): `divide` on two `Int`s does not return an
`Int` when the divisor is zero — it fails (`i128` division panics). -/
theorem divide_by_zero_cex :
    divide (.Int 1) (.Int 0) = .error .DivisionByZero := rfl

/-- C6 (amended): on numeric operands the arithmetic operators compute
on operands promoted to `Float` whenever either operand is `Float`, and
return an `Int` when both are `Int` — except that `/` and `%` on two
`Int`s fail when the right operand is zero; in particular
`add(Int(5), Float(2.5)) = Float(7.5)`. -/
theorem arithmetic_promotion (i j : AgoInt) (x y : AgoFloat) :
    (add (.Int i) (.Int j) = .ok (.Int (i + j)) ∧
     add (.Float x) (.Float y) = .ok (.Float (x + y)) ∧
     add (.Int i) (.Float y) = .ok (.Float (intAsFloat i + y)) ∧
     add (.Float x) (.Int j) = .ok (.Float (x + intAsFloat j))) ∧
    (subtract (.Int i) (.Int j) = .ok (.Int (i - j)) ∧
     subtract (.Float x) (.Float y) = .ok (.Float (x - y)) ∧
     subtract (.Int i) (.Float y) = .ok (.Float (intAsFloat i - y)) ∧
     subtract (.Float x) (.Int j) = .ok (.Float (x - intAsFloat j))) ∧
    (multiply (.Int i) (.Int j) = .ok (.Int (i * j)) ∧
     multiply (.Float x) (.Float y) = .ok (.Float (x * y)) ∧
     multiply (.Int i) (.Float y) = .ok (.Float (intAsFloat i * y)) ∧
     multiply (.Float x) (.Int j) = .ok (.Float (x * intAsFloat j))) ∧
    (divide (.Float x) (.Float y) = .ok (.Float (x / y)) ∧
     divide (.Int i) (.Float y) = .ok (.Float (intAsFloat i / y)) ∧
     divide (.Float x) (.Int j) = .ok (.Float (x / intAsFloat j)) ∧
     divide (.Int i) (.Int j) =
       (if j = 0 then .error .DivisionByZero else .ok (.Int (i.tdiv j)))) ∧
    (modulo (.Float x) (.Float y) = .ok (.Float (f64Mod x y)) ∧
     modulo (.Int i) (.Float y) = .ok (.Float (f64Mod (intAsFloat i) y)) ∧
     modulo (.Float x) (.Int j) = .ok (.Float (f64Mod x (intAsFloat j))) ∧
     modulo (.Int i) (.Int j) =
       (if j = 0 then .error .DivisionByZero else .ok (.Int (i.tmod j)))) ∧
    add (.Int 5) (.Float (2.5 : Rat)) = .ok (.Float (7.5 : Rat)) := by
  refine ⟨⟨rfl, rfl, rfl, rfl⟩, ⟨rfl, rfl, rfl, rfl⟩, ⟨rfl, rfl, rfl, rfl⟩,
    ⟨rfl, rfl, rfl, ?_⟩, ⟨rfl, rfl, rfl, ?_⟩, ?_⟩
  · by_cases h : j = 0 <;> simp [divide, i128Div, h, Except.map]
  · by_cases h : j = 0 <;> simp [modulo, i128Mod, h, Except.map]
  · exact congrArg (fun q => Except.ok (AgoType.Float q)) (by norm_num [intAsFloat])

/-- `structInsert` binds `k` to `v` and leaves every other key's
binding unchanged. -/
lemma structLookup_insert (m : List (String × AgoType)) (k k2 : String)
    (v : AgoType) :
    structLookup (structInsert m k v) k2 =
      if k2 = k then some v else structLookup m k2 := by
  induction m with
  | nil =>
      simp only [structInsert, structLookup]
      by_cases h : k2 = k
      · rw [if_pos h.symm, if_pos h]
      · rw [if_neg (fun hk => h hk.symm), if_neg h]
  | cons hd tl ih =>
      simp only [structInsert]
      by_cases h1 : hd.1 = k
      · rw [if_pos h1]
        simp only [structLookup]
        by_cases h2 : k2 = k
        · rw [if_pos h2.symm, if_pos h2]
        · rw [if_neg (fun hk => h2 hk.symm), if_neg h2,
            if_neg (fun hh : hd.1 = k2 => h2 (hh.symm.trans h1))]
      · rw [if_neg h1]
        simp only [structLookup]
        by_cases h2 : hd.1 = k2
        · have hk : ¬k2 = k := fun hh => h1 (h2.trans hh)
          rw [if_pos h2, if_neg hk, if_pos h2]
        · rw [if_neg h2, ih]
          by_cases h3 : k2 = k
          · rw [if_pos h3, if_pos h3]
          · rw [if_neg h3, if_neg h3, if_neg h2]

/-- C9: on a `Struct` with a string key, `set` and `insert` perform the
same update: both succeed and both produce the map with `k` bound to
`v` (replacing an existing binding, inserting a missing one) and every
other key unchanged. -/
theorem struct_set_insert_equiv (m : List (String × AgoType)) (k : String)
    (v : AgoType) :
    set (.Struct m) (.String k) v = (.Struct (structInsert m k v), none) ∧
    inseri (.Struct m) (.String k) v = (.Struct (structInsert m k v), none) ∧
    (∀ k2 : String, structLookup (structInsert m k v) k2 =
      if k2 = k then some v else structLookup m k2) :=
  ⟨rfl, rfl, fun k2 => structLookup_insert m k k2 v⟩

/-- C10: whenever `set` fails — out-of-range index, replacement kind
not matching a typed list's element kind, non-single-character
replacement into a `String`, or any other failing case — the container
is left exactly as it was: every check precedes every mutation. -/
theorem set_failure_atomic (c n v c' : AgoType) (e : AgoError)
    (h : set c n v = (c', some e)) : c' = c := by
  cases c <;> cases n <;> simp only [set] at h <;>
    (try split at h) <;> (try split at h) <;> (try split at h) <;>
    simp_all

/-- C10 (witness): setting a `Bool` into an `IntList` fails with a kind
mismatch and leaves the list unchanged. -/
theorem set_failure_atomic_witness :
    set (.IntList [10]) (.Int 0) (.Bool true) =
      (.IntList [10], some .ValueKindMismatch) ∧
    (.IntList [10] : AgoType) = .IntList [10] :=
  ⟨rfl, set_failure_atomic (.IntList [10]) (.Int 0) (.Bool true)
    (.IntList [10]) .ValueKindMismatch rfl⟩

/-- Both components of `range_bounds` are clamped to the length. -/
lemma rangeBounds_le (range : AgoRange) (len : Nat) :
    (rangeBounds range len).1 ≤ len ∧ (rangeBounds range len).2 ≤ len := by
  constructor <;> simp [rangeBounds]

/-- `l[s..e]` succeeds when `s ≤ e ≤ |l|`. -/
lemma rustSlice_of_le {α : Type} (l : List α) {s e : Nat} (h1 : s ≤ e)
    (h2 : e ≤ l.length) :
    rustSlice l s e = some ((l.drop s).take (e - s)) := by
  simp [rustSlice, h1, h2]

/-- `l[s..e]` panics when `e < s`. -/
lemma rustSlice_none {α : Type} (l : List α) {s e : Nat} (h : e < s) :
    rustSlice l s e = none := by
  rw [rustSlice, if_neg]
  rintro ⟨h1, -⟩
  omega

/-- Arithmetic description of `range_bounds` for ranges inside the
no-wrap window of the `as usize` conversion: the start is
`min(max(start, 0), len)`; with `end′ = end + 1` for inclusive ranges
and `end` otherwise, the end bound is `min(end′, len)` when
`end′ ≥ 0`, and `len` when `end′ < 0` (a negative `end′` wraps to a
huge `usize`, so the `min` with `len` clamps it to `len`, not 0). -/
lemma rangeBounds_eq (range : AgoRange) (len : Nat)
    (h1 : (len : Int) < 2 ^ 64) (h2 : range.start < 2 ^ 64)
    (h3 : (len : Int) - 2 ^ 64 <
      (if range.inclusive then range.stop + 1 else range.stop))
    (h4 : (if range.inclusive then range.stop + 1 else range.stop) < 2 ^ 64) :
    rangeBounds range len =
      ((min (max range.start 0) (len : Int)).toNat,
        if (if range.inclusive then range.stop + 1 else range.stop) < 0 then len
        else (min (if range.inclusive then range.stop + 1 else range.stop)
          (len : Int)).toNat) := by
  rcases range with ⟨s, e, inc⟩
  dsimp only at h2 h3 h4 ⊢
  have hp : (2 : Int) ^ 64 = 18446744073709551616 := by norm_num
  rw [hp] at h1 h2 h3 h4
  cases inc
  · simp only [Bool.false_eq_true, if_false] at h3 h4 ⊢
    simp only [rangeBounds, usizeOfI128, hp, Bool.false_eq_true, if_false]
    by_cases he : e < 0
    · rw [if_pos he, Prod.mk.injEq]
      constructor <;> omega
    · rw [if_neg he, Prod.mk.injEq]
      constructor <;> omega
  · simp only [if_true] at h3 h4 ⊢
    simp only [rangeBounds, usizeOfI128, hp, if_true]
    by_cases he : e + 1 < 0
    · rw [if_pos he, Prod.mk.injEq]
      constructor <;> omega
    · rw [if_neg he, Prod.mk.injEq]
      constructor <;> omega

/-- C3 (counterexample): `get` with a `Range` key does not succeed for
every range — when the clamped start exceeds the clamped end the Rust
slice expression panics: `get(IntList [10,20,30], Range{2,1,exclusive})`
fails. -/
theorem get_range_cex :
    get (.IntList [10, 20, 30]) (.Range ⟨2, 1, false⟩) =
      .error .SliceIndexPanic := rfl

/-- C3 (amended): for every list kind and `String`, `get` with a
`Range` key returns the sub-sequence of the same container kind between
the clamped bounds whenever the clamped start is at most the clamped
end, and fails (Rust slice panic) when the clamped start exceeds the
clamped end.  For ranges in the no-wrap window the clamped bounds are
`min(max(start,0), len)` and — with `end′ = end+1` when inclusive,
`end` otherwise — `min(end′, len)` for `end′ ≥ 0`, but `len` for a
negative `end′` (the `as usize` wrap makes a negative end select the
suffix, it does not clamp to 0). -/
theorem get_range_clamped (range : AgoRange) :
    (∀ l : List AgoInt,
      ((rangeBounds range l.length).1 ≤ (rangeBounds range l.length).2 →
        get (.IntList l) (.Range range) =
          .ok (.IntList ((l.drop (rangeBounds range l.length).1).take
            ((rangeBounds range l.length).2 - (rangeBounds range l.length).1)))) ∧
      ((rangeBounds range l.length).2 < (rangeBounds range l.length).1 →
        get (.IntList l) (.Range range) = .error .SliceIndexPanic)) ∧
    (∀ l : List AgoFloat,
      ((rangeBounds range l.length).1 ≤ (rangeBounds range l.length).2 →
        get (.FloatList l) (.Range range) =
          .ok (.FloatList ((l.drop (rangeBounds range l.length).1).take
            ((rangeBounds range l.length).2 - (rangeBounds range l.length).1)))) ∧
      ((rangeBounds range l.length).2 < (rangeBounds range l.length).1 →
        get (.FloatList l) (.Range range) = .error .SliceIndexPanic)) ∧
    (∀ l : List Bool,
      ((rangeBounds range l.length).1 ≤ (rangeBounds range l.length).2 →
        get (.BoolList l) (.Range range) =
          .ok (.BoolList ((l.drop (rangeBounds range l.length).1).take
            ((rangeBounds range l.length).2 - (rangeBounds range l.length).1)))) ∧
      ((rangeBounds range l.length).2 < (rangeBounds range l.length).1 →
        get (.BoolList l) (.Range range) = .error .SliceIndexPanic)) ∧
    (∀ l : List String,
      ((rangeBounds range l.length).1 ≤ (rangeBounds range l.length).2 →
        get (.StringList l) (.Range range) =
          .ok (.StringList ((l.drop (rangeBounds range l.length).1).take
            ((rangeBounds range l.length).2 - (rangeBounds range l.length).1)))) ∧
      ((rangeBounds range l.length).2 < (rangeBounds range l.length).1 →
        get (.StringList l) (.Range range) = .error .SliceIndexPanic)) ∧
    (∀ l : List AgoType,
      ((rangeBounds range l.length).1 ≤ (rangeBounds range l.length).2 →
        get (.ListAny l) (.Range range) =
          .ok (.ListAny ((l.drop (rangeBounds range l.length).1).take
            ((rangeBounds range l.length).2 - (rangeBounds range l.length).1)))) ∧
      ((rangeBounds range l.length).2 < (rangeBounds range l.length).1 →
        get (.ListAny l) (.Range range) = .error .SliceIndexPanic)) ∧
    (∀ s : String,
      ((rangeBounds range s.data.length).1 ≤ (rangeBounds range s.data.length).2 →
        get (.String s) (.Range range) =
          .ok (.String (String.mk ((s.data.drop (rangeBounds range s.data.length).1).take
            ((rangeBounds range s.data.length).2 - (rangeBounds range s.data.length).1))))) ∧
      ((rangeBounds range s.data.length).2 < (rangeBounds range s.data.length).1 →
        get (.String s) (.Range range) = .error .SliceIndexPanic)) ∧
    (∀ len : Nat, (len : Int) < 2 ^ 64 → range.start < 2 ^ 64 →
      (len : Int) - 2 ^ 64 <
        (if range.inclusive then range.stop + 1 else range.stop) →
      (if range.inclusive then range.stop + 1 else range.stop) < 2 ^ 64 →
      rangeBounds range len =
        ((min (max range.start 0) (len : Int)).toNat,
          if (if range.inclusive then range.stop + 1 else range.stop) < 0 then len
          else (min (if range.inclusive then range.stop + 1 else range.stop)
            (len : Int)).toNat)) := by
  refine ⟨fun l => ⟨fun hle => ?_, fun hgt => ?_⟩, fun l => ⟨fun hle => ?_, fun hgt => ?_⟩,
    fun l => ⟨fun hle => ?_, fun hgt => ?_⟩, fun l => ⟨fun hle => ?_, fun hgt => ?_⟩,
    fun l => ⟨fun hle => ?_, fun hgt => ?_⟩, fun s => ⟨fun hle => ?_, fun hgt => ?_⟩,
    fun len ha hb hc hd => rangeBounds_eq range len ha hb hc hd⟩ <;>
  simp only [get] <;>
  first
    | rw [rustSlice_of_le _ hle ((rangeBounds_le range _).2)]
    | rw [rustSlice_none _ hgt]

/-- C3 (witness): slicing `IntList [10,20,30]` with the inclusive range
`0..1` succeeds and yields `IntList [10,20]`. -/
theorem get_range_clamped_witness :
    get (.IntList [10, 20, 30]) (.Range ⟨0, 1, true⟩) = .ok (.IntList [10, 20]) :=
  (((get_range_clamped ⟨0, 1, true⟩).1 [10, 20, 30]).1 (by decide)).trans rfl

end Ago
